import Mathlib

/-!
Verification development for the site-configuration evaluator of the
media-scrapy repository (src/media_scrapy/conf.py).

The Python planner is shallowly embedded: pure functions become Lean
functions, fallible code returns `Except`, and the external libraries
(parsel selectors, the `re` regex engine, scrapy responses) are modelled
by records that expose exactly the observations the planner makes of
them (an `expand` method on a match object, an `xpath(...).getall()`
evaluation on a selector list, the extracted link elements in document
order, the `urljoin` resolution of a raw link).  Bytes are `List Nat`
(each entry one octet).  User-supplied Python exceptions other than the
raises made by the planner itself are out of scope of the model: a
wrapped component function is modelled as `Kwargs → Option α`, matching
how the planner turns a `None` result into a `MediaScrapyError`.
-/

namespace MediaScrapy

/-- UTF-8 bytes of one unicode code point (model of Python `str.encode`). -/
def utf8Bytes (c : Char) : List Nat :=
  let n := c.toNat
  if n < 0x80 then [n]
  else if n < 0x800 then [0xC0 + n / 0x40, 0x80 + n % 0x40]
  else if n < 0x10000 then
    [0xE0 + n / 0x1000, 0x80 + n / 0x40 % 0x40, 0x80 + n % 0x40]
  else
    [0xF0 + n / 0x40000, 0x80 + n / 0x1000 % 0x40, 0x80 + n / 0x40 % 0x40,
      0x80 + n % 0x40]

/-- UTF-8 encoding of a string, as a list of octets
(model of Python `s.encode("utf-8")` used by `extract_file_content_impl`). -/
def utf8Encode (s : String) : List Nat :=
  (s.data.map utf8Bytes).flatten

/-- Lowercase hexadecimal digit, used by the JSON `\uXXXX` escapes. -/
def hexDigit (n : Nat) : Char :=
  if n < 10 then Char.ofNat (48 + n) else Char.ofNat (87 + n)

/-- Four lowercase hex digits (Python `"\\u%04x"`). -/
def hex4 (n : Nat) : String :=
  String.mk [hexDigit (n / 4096 % 16), hexDigit (n / 256 % 16),
    hexDigit (n / 16 % 16), hexDigit (n % 16)]

/-- Escaping of one character inside a JSON string literal, following
Python `json.dumps` defaults (`ensure_ascii=True`): the named escapes,
`\uXXXX` for other control or non-ASCII characters, with surrogate
pairs for code points above the basic multilingual plane. -/
def jsonEscapeChar (c : Char) : String :=
  if c = '\\' then "\\\\"
  else if c = '"' then "\\\""
  else if c = '\n' then "\\n"
  else if c = '\r' then "\\r"
  else if c = '\t' then "\\t"
  else if c.toNat = 8 then "\\b"
  else if c.toNat = 12 then "\\f"
  else if c.toNat < 0x20 ∨ 0x7e < c.toNat then
    if c.toNat < 0x10000 then "\\u" ++ hex4 c.toNat
    else
      let n := c.toNat - 0x10000
      "\\u" ++ hex4 (0xd800 + n / 0x400) ++ "\\u" ++ hex4 (0xdc00 + n % 0x400)
  else String.mk [c]

/-- A JSON string literal for `s` (Python `json.dumps` of one `str`). -/
def jsonQuote (s : String) : String :=
  "\"" ++ String.join (s.data.map jsonEscapeChar) ++ "\""

/-- Python `json.dumps` applied to a list of strings: default separators
put `", "` between elements. -/
def jsonDumpsStringList (xs : List String) : String :=
  "[" ++ String.intercalate ", " (xs.map jsonQuote) ++ "]"

/-- Model of `posixpath.join` restricted to two arguments, which is how
`conf.py` always calls `os.path.join`. -/
def pathJoin (a b : String) : String :=
  if b.startsWith "/" then b
  else if a = "" ∨ a.endsWith "/" then a ++ b
  else a ++ "/" ++ b

/-- Split a character list into lines, each keeping its trailing
newline (model of `str.splitlines(True)` for newline-only input). -/
def splitLinesKeep : List Char → List Char → List (List Char)
  | [], [] => []
  | [], acc => [acc.reverse]
  | '\n' :: rest, acc => ('\n' :: acc).reverse :: splitLinesKeep rest []
  | c :: rest, acc => splitLinesKeep rest (c :: acc)

/-- Model of `textwrap.indent(text, pad)`: every line that contains a
non-whitespace character gets the pad prepended. -/
def indentText (pad : String) (s : String) : String :=
  String.join ((splitLinesKeep s.data []).map fun line =>
    if line.any (fun c => ¬ c.isWhitespace) then pad ++ String.mk line
    else String.mk line)

/-- Model of `posixpath.dirname`: the part before the final slash, with
trailing slashes stripped unless the head consists only of slashes. -/
def pathDirname (p : String) : String :=
  let chars := p.data
  match (chars.reverse.findIdx? (· = '/')) with
  | none => ""
  | some revIdx =>
    let i := chars.length - revIdx
    let head := chars.take i
    if head ≠ [] ∧ head.any (· ≠ '/') then
      String.mk (head.reverse.dropWhile (· = '/')).reverse
    else
      String.mk head

/-!  Models of the external collaborators (re, parsel, scrapy). -/

/-- Model of a `re.Match` object: the planner only observes it through
`expand` (template expansion against the captured groups). -/
structure UrlMatch where
  expand : String → String

/-- Model of a compiled `re.Pattern`: the url-matcher schema only calls
`fullmatch`. -/
structure Regex where
  fullmatch : String → Option UrlMatch

/-- Model of a parsel `Selector` for a single element.  The planner
carries link elements around opaquely; the only selector the code ever
builds itself is the pseudo anchor for the start response. -/
inductive Selector where
  | anchor (href : String) (text : String)
  | el (tag : String) (attrs : List (String × String))
deriving DecidableEq

/-- Model of a parsel `SelectorList`, exposing the two observations the
planner makes of a content scope: `xpath(q).getall()` (used by the
literal `file_content` extractor) and the link elements found by
`get_links` together with their raw (not yet absolutized) urls, in
document order.  The href/src attribute selection logic of `get_links`
is folded into `linkEls`. -/
structure SelectorList where
  xpathGetAll : String → List String
  linkEls : List (Selector × String)

/-- Model of a scrapy `Response`: its url, body octets, the title text
observed by `res.xpath("//title/text()").get()`, the base-url
resolution `res.urljoin`, and `SelectorList([res.selector])` as
`selectorList`. -/
structure Response where
  url : String
  body : List Nat
  titleText : Option String
  urljoin : String → String
  selectorList : SelectorList

/-!  Errors.  `conf.py` raises `MediaScrapyError` itself and relies on
Python `assert` statements; both are modelled as explicit error values. -/

/-- The error outcomes of a planner invocation. -/
inductive PlanError where
  | mediaScrapyError (message : String)
  | assertionError (message : String)
deriving DecidableEq

/-!  The Callable Adapter (`CallableComponent` in conf.py). -/

/-- The keyword-argument map a component invocation receives.  Each
field is `none` when the key is absent.  The `url_match` key is passed
with the value `None` by the planner when no match object exists, so
its field distinguishes an absent key (`none`) from a present `None`
(`some none`). -/
structure Kwargs where
  url : Option String := none
  linkEl : Option Selector := none
  urlMatch : Option (Option UrlMatch) := none
  res : Option Response := none
  contentNode : Option SelectorList := none

/-- The string result of a `re.Match`-or-`bool` url matcher
(`Union[bool, re.Match]` in conf.py). -/
inductive UrlMatcherResult where
  | bool (b : Bool)
  | matched (m : UrlMatch)

/-- `Union[str, bytes]` as returned by a file-content extractor. -/
inductive StrOrBytes where
  | str (s : String)
  | bytes (b : List Nat)

/-- Model of `CallableComponent`.  `sourceString` is the stored result
of `get_source_string(source_obj)`; `fn` is the wrapped function over a
keyword map, `none` standing for a Python `None` result. -/
structure CallableComponent (α : Type) where
  sourceString : String
  acceptsAllNamedArgs : Bool
  acceptableNamedArgs : List String
  canAcceptResponse : Bool
  fn : Kwargs → Option α

/-- `CallableComponent.needs_response`: computed in `__init__` as
`can_accept_response and any(arg in acceptable for arg in [res, content_node])`. -/
def CallableComponent.needsResponse {α : Type} (c : CallableComponent α) : Bool :=
  c.canAcceptResponse &&
    (c.acceptableNamedArgs.contains "res" || c.acceptableNamedArgs.contains "content_node")

/-- The kwargs filter of `CallableComponent.__call__`:
`{k: v for k, v in kwargs.items() if k in self.acceptable_named_args}`. -/
def filterKwargs (names : List String) (kw : Kwargs) : Kwargs :=
  { url := if names.contains "url" then kw.url else none
    linkEl := if names.contains "link_el" then kw.linkEl else none
    urlMatch := if names.contains "url_match" then kw.urlMatch else none
    res := if names.contains "res" then kw.res else none
    contentNode := if names.contains "content_node" then kw.contentNode else none }

/-- The keyword map actually forwarded to `fn` by `__call__`. -/
def CallableComponent.invokedKwargs {α : Type} (c : CallableComponent α)
    (kw : Kwargs) : Kwargs :=
  if c.acceptsAllNamedArgs then kw else filterKwargs c.acceptableNamedArgs kw

/-- Model of `error_message(message, source_obj)` when the source object
is a plain string: `get_source_string` falls back to `f"{obj}\n"`, and
the result is indented by four spaces under the message. -/
def errorMessageFromText (message : String) (src : String) : String :=
  message ++ ":\n" ++ indentText "    " (src ++ "\n")

/-- Model of `error_message(message, component)`: a `CallableComponent`
exposes `get_source_string`, which returns the stored rendering. -/
def errorMessageFromComponent {α : Type} (message : String)
    (c : CallableComponent α) : String :=
  message ++ ":\n" ++ indentText "    " c.sourceString

/-- Model of `CallableComponent.__call__`: filter the keyword map
unless the wrapped function is variadic, invoke it, and turn a `None`
result into a `MediaScrapyError` carrying the source rendering. -/
def CallableComponent.call {α : Type} (c : CallableComponent α)
    (kw : Kwargs) : Except PlanError α :=
  match c.fn (c.invokedKwargs kw) with
  | none => .error (.mediaScrapyError
      (errorMessageFromComponent "Return none from site config component below" c))
  | some v => .ok v

/-!  The option schemas (literal cases compiled by conf.py).  Each
definition mirrors the closure built by the corresponding
`...Schema.create_if_available` branch; `sourceString` is
`get_source_string(definition)` for a literal, which is the literal
followed by a newline. -/

/-- `UrlMatcherSchema` on a string or `re.Pattern` literal: full-match
the compiled regex, `None` becoming `False`. -/
def urlMatcherOfRegex (src : String) (regex : Regex) :
    CallableComponent UrlMatcherResult :=
  { sourceString := src ++ "\n"
    acceptsAllNamedArgs := false
    acceptableNamedArgs := ["url"]
    canAcceptResponse := false
    fn := fun kw =>
      kw.url.map fun u =>
        match regex.fullmatch u with
        | none => .bool false
        | some m => .matched m }

/-- `UrlMatcherSchema` on a callable: invoke the user function with the
url; a `None` result becomes `False`. -/
def urlMatcherOfCallable (src : String) (f : String → Option UrlMatcherResult) :
    CallableComponent UrlMatcherResult :=
  { sourceString := src
    acceptsAllNamedArgs := false
    acceptableNamedArgs := ["url"]
    canAcceptResponse := false
    fn := fun kw =>
      kw.url.map fun u =>
        match f u with
        | none => .bool false
        | some r => r }

/-- `UrlConverterSchema` on a string literal: a regex-expansion
template; without a match object the template is returned verbatim. -/
def urlConverterOfTemplate (template : String) : CallableComponent String :=
  { sourceString := template ++ "\n"
    acceptsAllNamedArgs := false
    acceptableNamedArgs := ["url_match"]
    canAcceptResponse := false
    fn := fun kw =>
      match kw.urlMatch with
      | some none => some template
      | some (some m) => some (m.expand template)
      | none => none }

/-- `FilePathExtractorSchema` on a string literal: the same template
expansion, but registered with `can_accept_response=True`. -/
def filePathExtractorOfTemplate (template : String) : CallableComponent String :=
  { sourceString := template ++ "\n"
    acceptsAllNamedArgs := false
    acceptableNamedArgs := ["url_match"]
    canAcceptResponse := true
    fn := fun kw =>
      match kw.urlMatch with
      | some none => some template
      | some (some m) => some (m.expand template)
      | none => none }

/-- `ContentExtractorSchema` on a string literal: evaluate the XPath
over the content scope and JSON-encode the list of all results. -/
def contentExtractorOfXPath (xp : String) : CallableComponent StrOrBytes :=
  { sourceString := xp ++ "\n"
    acceptsAllNamedArgs := false
    acceptableNamedArgs := ["content_node"]
    canAcceptResponse := true
    fn := fun kw =>
      kw.contentNode.map fun cn =>
        .str (jsonDumpsStringList (cn.xpathGetAll xp)) }

/-!  The structure tree (`StructureNode` in conf.py).  The `parent`
back reference is used only while the tree is being built and never by
the planner, so the embedding keeps only the owned `children` list. -/

/-- The per-node compiled options and flags of a `StructureNode`. -/
structure NodeData where
  urlMatcher : Option (CallableComponent UrlMatcherResult) := none
  urlConverter : Option (CallableComponent String) := none
  contentNodeExtractor : Option (CallableComponent SelectorList) := none
  fileContentExtractor : Option (CallableComponent StrOrBytes) := none
  filePathExtractor : Option (CallableComponent String) := none
  assertionMatcher : Option (CallableComponent Bool) := none
  paging : Bool := false
  isRoot : Bool := false

/-- A structure node: its compiled options plus the ordered children. -/
inductive StructureNode where
  | mk (data : NodeData) (children : List StructureNode)

namespace StructureNode

/-- The node options. -/
def data : StructureNode → NodeData
  | .mk d _ => d

/-- The ordered children. -/
def children : StructureNode → List StructureNode
  | .mk _ cs => cs

/-- Field access shorthands. -/
def urlMatcher (n : StructureNode) : Option (CallableComponent UrlMatcherResult) :=
  n.data.urlMatcher

def urlConverter (n : StructureNode) : Option (CallableComponent String) :=
  n.data.urlConverter

def contentNodeExtractor (n : StructureNode) : Option (CallableComponent SelectorList) :=
  n.data.contentNodeExtractor

def fileContentExtractor (n : StructureNode) : Option (CallableComponent StrOrBytes) :=
  n.data.fileContentExtractor

def filePathExtractor (n : StructureNode) : Option (CallableComponent String) :=
  n.data.filePathExtractor

def assertionMatcher (n : StructureNode) : Option (CallableComponent Bool) :=
  n.data.assertionMatcher

def paging (n : StructureNode) : Bool :=
  n.data.paging

def isRoot (n : StructureNode) : Bool :=
  n.data.isRoot

theorem sizeOf_children_lt (n : StructureNode) : sizeOf n.children < sizeOf n := by
  cases n with
  | mk d cs => simp [children]

/-- `needs_no_request`: a node without a url matcher is pass-through. -/
def needsNoRequest (n : StructureNode) : Bool :=
  n.urlMatcher.isNone

/-- `is_leaf`. -/
def isLeaf (n : StructureNode) : Bool :=
  n.children.isEmpty

/-- `needs_response_for_file_path`. -/
def needsResponseForFilePath (n : StructureNode) : Bool :=
  match n.filePathExtractor with
  | none => false
  | some c => c.needsResponse

/-- `can_get_file_path_before_request`. -/
def canGetFilePathBeforeRequest (n : StructureNode) : Bool :=
  match n.filePathExtractor with
  | none => false
  | some c => ! c.needsResponse

/-- `needs_response_for_file_content`. -/
def needsResponseForFileContent (n : StructureNode) : Bool :=
  match n.fileContentExtractor with
  | none => false
  | some c => c.needsResponse

/-- `can_get_file_content_before_request`. -/
def canGetFileContentBeforeRequest (n : StructureNode) : Bool :=
  match n.fileContentExtractor with
  | none => false
  | some c => ! c.needsResponse

/-- `get_node_by_path`.  The Python code asserts the index is in
bounds; an out-of-bounds index is modelled as `none`. -/
def getNodeByPath : StructureNode → List Nat → Option StructureNode
  | n, [] => some n
  | n, i :: rest =>
    match n.children[i]? with
    | some child => getNodeByPath child rest
    | none => none

/-- `match_url`: no matcher means no match; a boolean result carries no
match object; a match result means matched. -/
def matchUrl (n : StructureNode) (url : String) :
    Except PlanError (Bool × Option UrlMatch) :=
  match n.urlMatcher with
  | none => pure (false, none)
  | some c => do
    let r ← c.call { url := some url }
    match r with
    | .bool b => pure (b, none)
    | .matched m => pure (true, some m)

/-- `convert_url`: identity without a converter. -/
def convertUrl (n : StructureNode) (url : String) (linkEl : Selector)
    (urlMatch : Option UrlMatch) : Except PlanError String :=
  match n.urlConverter with
  | none => pure url
  | some c =>
    c.call { url := some url, linkEl := some linkEl, urlMatch := some urlMatch }

/-- `get_content_node`: the extractor result, or
`SelectorList([res.selector])` by default. -/
def getContentNode (n : StructureNode) (url : String) (linkEl : Selector)
    (urlMatch : Option UrlMatch) (res : Response) :
    Except PlanError SelectorList :=
  match n.contentNodeExtractor with
  | none => pure res.selectorList
  | some c =>
    c.call { url := some url, linkEl := some linkEl, urlMatch := some urlMatch,
             res := some res }

/-- `get_file_path_component_before_request`: only when an extractor
exists and does not need the response. -/
def getFilePathComponentBeforeRequest (n : StructureNode) (url : String)
    (linkEl : Selector) (urlMatch : Option UrlMatch) :
    Except PlanError (Option String) :=
  if n.filePathExtractor.isSome ∧ ¬ n.needsResponseForFilePath then do
    match n.filePathExtractor with
    | some c => do
      let r ← c.call { url := some url, linkEl := some linkEl,
                       urlMatch := some urlMatch }
      pure (some r)
    | none => pure none
  else
    pure none

/-- `get_file_path_component_after_request`: only when the extractor
needs the response. -/
def getFilePathComponentAfterRequest (n : StructureNode) (url : String)
    (res : Response) (contentNode : SelectorList) (linkEl : Selector)
    (urlMatch : Option UrlMatch) : Except PlanError (Option String) :=
  if n.needsResponseForFilePath then
    match n.filePathExtractor with
    | some c => do
      let r ← c.call { url := some url, res := some res,
                       contentNode := some contentNode, linkEl := some linkEl,
                       urlMatch := some urlMatch }
      pure (some r)
    | none =>
      .error (.assertionError "file_path_extractor is not None")
  else
    pure none

/-- `extract_file_content_impl`: a string result is UTF-8 encoded. -/
def encodeFileContent (r : StrOrBytes) : List Nat :=
  match r with
  | .str s => utf8Encode s
  | .bytes b => b

/-- `extract_file_content` (response available): the extractor is
invoked with the full keyword set. -/
def extractFileContent (n : StructureNode) (url : String) (res : Response)
    (contentNode : SelectorList) (linkEl : Selector)
    (urlMatch : Option UrlMatch) : Except PlanError (List Nat) :=
  match n.fileContentExtractor with
  | none => .error (.assertionError "file_content_extractor is not None")
  | some c => do
    let r ← c.call { url := some url, res := some res,
                     contentNode := some contentNode, linkEl := some linkEl,
                     urlMatch := some urlMatch }
    pure (encodeFileContent r)

/-- `extract_file_content_without_response`: the `res` and
`content_node` keys are absent. -/
def extractFileContentWithoutResponse (n : StructureNode) (url : String)
    (linkEl : Selector) (urlMatch : Option UrlMatch) :
    Except PlanError (List Nat) :=
  match n.fileContentExtractor with
  | none => .error (.assertionError "file_content_extractor is not None")
  | some c => do
    let r ← c.call { url := some url, linkEl := some linkEl,
                     urlMatch := some urlMatch }
    pure (encodeFileContent r)

/-- `assert_content`: invoke the assertion matcher when present and
discard its result (its own failure raises inside the component). -/
def assertContent (n : StructureNode) (url : String) (res : Response)
    (contentNode : SelectorList) (linkEl : Selector)
    (urlMatch : Option UrlMatch) : Except PlanError Unit :=
  match n.assertionMatcher with
  | none => pure ()
  | some c => do
    let _ ← c.call { url := some url, res := some res,
                     contentNode := some contentNode, linkEl := some linkEl,
                     urlMatch := some urlMatch }
    pure ()

end StructureNode

/-- `get_links(res, content_node)`: the link elements of the content
scope in document order, each raw url resolved by `res.urljoin`. -/
def getLinks (res : Response) (contentNode : SelectorList) :
    List (Selector × String) :=
  contentNode.linkEls.map fun p => (p.1, res.urljoin p.2)

/-!  The planner outputs (`UrlInfo` dataclasses, surfaced to the spider
as the Command variants: `ParseUrlInfo` backs `RequestUrlCommand`,
`DownloadUrlInfo` backs `DownloadUrlCommand` and `FileContentUrlInfo`
backs `SaveFileContentCommand`). -/

/-- The payload of a `ParseUrlInfo` (a RequestUrl command). -/
structure ParseInfo where
  url : String
  filePath : String
  linkEl : Selector
  structurePath : List Nat
  urlMatch : Option UrlMatch

/-- The tagged planner output. -/
inductive UrlInfo where
  | download (url : String) (filePath : String)
  | fileContent (url : String) (filePath : String) (content : List Nat)
  | parse (info : ParseInfo)

namespace UrlInfo

/-- Whether the command is a DownloadUrl. -/
def isDownload : UrlInfo → Bool
  | .download _ _ => true
  | _ => false

/-- Whether the command is a RequestUrl. -/
def isParse : UrlInfo → Bool
  | .parse _ => true
  | _ => false

/-- The url common field. -/
def url : UrlInfo → String
  | .download u _ => u
  | .fileContent u _ _ => u
  | .parse i => i.url

/-- The file path common field. -/
def filePath : UrlInfo → String
  | .download _ p => p
  | .fileContent _ p _ => p
  | .parse i => i.filePath

end UrlInfo

/-!  The Command Planner (`SiteConfig.get_url_infos*` in conf.py). -/

/-- The exact message string raised by the start-url safety net
(conf.py line 281; note the misspelling "much" in the source). -/
def startUrlNoMatchMessage : String :=
  "Start url doesn\x27t much any url matcher"

/-- The dump of every root child matcher source built before the
start-url raise (conf.py lines 272-278). -/
def urlMatcherSourcesText (children : List StructureNode) : String :=
  String.join (children.enum.map fun p =>
    match p.2.urlMatcher with
    | none => toString p.1 ++ ": <no url matcher in definition>\n"
    | some c => toString p.1 ++ ": " ++ c.sourceString)

/-- The paging loop (conf.py lines 149-178): for every extracted link
the parent node accepts, build a RequestUrl staying on the parent node;
its file path replaces the last component of the original parent file
path when the extractor can run before the request, and keeps the
original parent file path otherwise. -/
def pagingInfosFor (node : StructureNode) (parentStructurePath : List Nat)
    (originalParentFilePath : String) :
    List (Selector × String) → Except PlanError (List UrlInfo)
  | [] => pure []
  | (linkEl, url) :: rest => do
    let mr ← node.matchUrl url
    if mr.1 then do
      let convertedUrl ← node.convertUrl url linkEl mr.2
      let nextPageFilePath ←
        if node.canGetFilePathBeforeRequest then do
          let comp? ← node.getFilePathComponentBeforeRequest convertedUrl linkEl mr.2
          match comp? with
          | some comp =>
            pure (pathJoin (pathDirname originalParentFilePath) comp)
          | none =>
            Except.error (.assertionError "isinstance(file_path_component, str)")
        else
          pure originalParentFilePath
      let restInfos ← pagingInfosFor node parentStructurePath originalParentFilePath rest
      pure (UrlInfo.parse
        { url := convertedUrl, filePath := nextPageFilePath,
          structurePath := parentStructurePath, linkEl := linkEl,
          urlMatch := mr.2 } :: restInfos)
    else
      pagingInfosFor node parentStructurePath originalParentFilePath rest

/-- The link-driven child loop (conf.py lines 220-269): for every
extracted link the child accepts, emit a SaveFileContent when the leaf
can produce its content before the request, a DownloadUrl when it is a
leaf needing no response for its file data, and a RequestUrl
otherwise. -/
def linkDrivenInfos (c : StructureNode) (parentFilePath : String)
    (childStructurePath : List Nat) :
    List (Selector × String) → Except PlanError (List UrlInfo)
  | [] => pure []
  | (linkEl, url) :: rest => do
    let mr ← c.matchUrl url
    if mr.1 then do
      let comp? ← c.getFilePathComponentBeforeRequest url linkEl mr.2
      let filePath :=
        match comp? with
        | some comp => pathJoin parentFilePath comp
        | none => parentFilePath
      let convertedUrl ← c.convertUrl url linkEl mr.2
      let needsResponseForFile :=
        c.needsResponseForFilePath || c.needsResponseForFileContent
      let info ←
        if c.isLeaf && ! needsResponseForFile then
          if c.canGetFileContentBeforeRequest then do
            let fileContent ← c.extractFileContentWithoutResponse convertedUrl linkEl mr.2
            pure (UrlInfo.fileContent convertedUrl filePath fileContent)
          else
            pure (UrlInfo.download convertedUrl filePath)
        else
          pure (UrlInfo.parse
            { url := convertedUrl, filePath := filePath, linkEl := linkEl,
              structurePath := childStructurePath, urlMatch := mr.2 })
      let restInfos ← linkDrivenInfos c parentFilePath childStructurePath rest
      pure (info :: restInfos)
    else
      linkDrivenInfos c parentFilePath childStructurePath rest

mutual

/-- The body of `get_url_infos_with_parent_impl` once the parent node
has been resolved from its structure path.  The pass-through recursion
of the Python code goes through `get_url_infos_with_parent_url_info`,
which re-resolves `parent_structure_path + [index]` from the root; the
embedding recurses into the child node directly, which agrees with the
re-resolution (see `getNodeByPath_append`). -/
def planNode (node : StructureNode) (res : Response)
    (parentStructurePath : List Nat) (originalParentFilePath : String)
    (parentLinkEl : Selector) (parentUrlMatch : Option UrlMatch) :
    Except PlanError (List UrlInfo) := do
  let contentNode ← node.getContentNode res.url parentLinkEl parentUrlMatch res
  node.assertContent res.url res contentNode parentLinkEl parentUrlMatch
  let parentFilePathComponent ←
    node.getFilePathComponentAfterRequest res.url res contentNode parentLinkEl
      parentUrlMatch
  let parentFilePath :=
    match parentFilePathComponent with
    | some comp => pathJoin originalParentFilePath comp
    | none => originalParentFilePath
  if node.isLeaf then do
    let fileContent ←
      if node.needsResponseForFileContent then
        node.extractFileContent res.url res contentNode parentLinkEl parentUrlMatch
      else
        pure res.body
    pure [UrlInfo.fileContent res.url parentFilePath fileContent]
  else do
    let linkInfos := getLinks res contentNode
    let pagingInfos ←
      if node.paging then
        pagingInfosFor node parentStructurePath originalParentFilePath linkInfos
      else
        pure []
    let r ← processChildren node.isRoot res parentStructurePath parentFilePath
      parentLinkEl parentUrlMatch linkInfos 0 node.children
    if ! r.2 && node.isRoot then
      Except.error (.mediaScrapyError
        (errorMessageFromText startUrlNoMatchMessage
          (urlMatcherSourcesText node.children)))
    else
      pure (pagingInfos ++ r.1)
termination_by sizeOf node
decreasing_by
  simp_wf
  exact StructureNode.sizeOf_children_lt node

/-- The child loop of `get_url_infos_with_parent_impl` (conf.py lines
182-269), returning the produced commands together with the
`forwardable_structure_node_found` flag.  A pass-through child (or any
child under the root) is evaluated in place against the same response;
under the root the child must first accept the response url and is
skipped silently otherwise. -/
def processChildren (isRoot : Bool) (res : Response)
    (parentStructurePath : List Nat) (parentFilePath : String)
    (parentLinkEl : Selector) (parentUrlMatch : Option UrlMatch)
    (linkInfos : List (Selector × String)) (idx : Nat)
    (children : List StructureNode) : Except PlanError (List UrlInfo × Bool) :=
  match children with
  | [] => pure ([], false)
  | c :: rest => do
    if c.needsNoRequest || isRoot then do
      let mr ← if isRoot then c.matchUrl res.url else pure (true, parentUrlMatch)
      if mr.1 then do
        let comp? ← c.getFilePathComponentBeforeRequest res.url parentLinkEl mr.2
        let filePath :=
          match comp? with
          | some comp => pathJoin parentFilePath comp
          | none => parentFilePath
        let _convertedUrl ← c.convertUrl res.url parentLinkEl mr.2
        let subInfos ← planNode c res (parentStructurePath ++ [idx]) filePath
          parentLinkEl mr.2
        let r ← processChildren isRoot res parentStructurePath parentFilePath
          parentLinkEl parentUrlMatch linkInfos (idx + 1) rest
        pure (subInfos ++ r.1, true)
      else
        processChildren isRoot res parentStructurePath parentFilePath
          parentLinkEl parentUrlMatch linkInfos (idx + 1) rest
    else do
      let blockInfos ← linkDrivenInfos c parentFilePath
        (parentStructurePath ++ [idx]) linkInfos
      let r ← processChildren isRoot res parentStructurePath parentFilePath
        parentLinkEl parentUrlMatch linkInfos (idx + 1) rest
      pure (blockInfos ++ r.1, r.2)
termination_by sizeOf children
decreasing_by
  all_goals simp_wf
  all_goals omega

end

/-- The pseudo parent anchor synthesized for the start response
(conf.py lines 68-70): href is the (html-escaped, hence round-tripped)
response url, the text is `res.xpath("//title/text()").get()`, which
the f-string renders as the string "None" when there is no title. -/
def pseudoParentLinkEl (res : Response) : Selector :=
  Selector.anchor res.url (res.titleText.getD "None")

/-- `SiteConfig.get_url_infos`: without a parent url-info in the
request metadata this is the start response and a pseudo parent context
is synthesized with `original_parent_file_path="."`; otherwise the
parent context is taken from the carried `ParseUrlInfo`.  The parent
node resolution by `get_node_by_path` (whose Python bounds assert is
the `assertionError` case) happens before the per-parent body. -/
def getUrlInfos (root : StructureNode) (res : Response)
    (parentUrlInfo : Option ParseInfo) : Except PlanError (List UrlInfo) :=
  match parentUrlInfo with
  | none =>
    planNode root res [] "." (pseudoParentLinkEl res) none
  | some info =>
    match root.getNodeByPath info.structurePath with
    | some node =>
      planNode node res info.structurePath info.filePath info.linkEl info.urlMatch
    | none => .error (.assertionError "child_index < len(self.children)")

/-- Sanity check for the direct recursion of `planNode`: resolving
`path ++ [i]` from the root agrees with stepping into child `i` of the
node resolved at `path`, as the Python recursion through
`get_url_infos_with_parent_url_info` does. -/
theorem getNodeByPath_append (root node child : StructureNode)
    (path : List Nat) (i : Nat)
    (h : root.getNodeByPath path = some node)
    (hc : node.children[i]? = some child) :
    root.getNodeByPath (path ++ [i]) = some child := by
  induction path generalizing root with
  | nil =>
    simp only [StructureNode.getNodeByPath] at h
    cases h
    simp [StructureNode.getNodeByPath, hc]
  | cons j rest ih =>
    simp only [StructureNode.getNodeByPath] at h ⊢
    cases hj : root.children[j]? with
    | none => rw [hj] at h; exact absurd h (by simp)
    | some c => rw [hj] at h; exact ih c h

/-!  Shared proof helpers. -/

theorem ok_bind {ε α β : Type} (a : α) (f : α → Except ε β) :
    (Except.ok a >>= f : Except ε β) = f a := rfl

/-- The file-path refinement applied by the planner: append the
component when one was produced. -/
def refineFilePath (orig : String) (fpc : Option String) : String :=
  match fpc with
  | some comp => pathJoin orig comp
  | none => orig

/-!  Concrete gadgets used by witnesses and counterexamples. -/

/-- A url matcher wrapping a user callable that accepts every url. -/
def acceptAllMatcher : CallableComponent UrlMatcherResult :=
  urlMatcherOfCallable "def url_matcher(url): return True\n"
    (fun _ => some (.bool true))

/-- A url matcher wrapping a user callable that rejects every url. -/
def rejectAllMatcher : CallableComponent UrlMatcherResult :=
  urlMatcherOfCallable "def url_matcher(url): return False\n"
    (fun _ => some (.bool false))

/-- A component whose wrapped function returns `None` on every call. -/
def alwaysNoneComponent : CallableComponent Nat :=
  { sourceString := "def component(**kwargs): return None\n"
    acceptsAllNamedArgs := true
    acceptableNamedArgs := []
    canAcceptResponse := false
    fn := fun _ => none }

/-- An empty content scope. -/
def emptySelectorList : SelectorList :=
  { xpathGetAll := fun _ => [], linkEls := [] }

/-- A plain anchor element used as a carried parent link element. -/
def someLinkEl : Selector := Selector.el "a" [("href", "x")]

/-!  Claim C7. -/

/-- C7: for every compiled component in every option slot, when the
wrapped function returns null the invocation fails with a
`MediaScrapyError` carrying the component source rendering, and a
successful invocation always hands its caller the non-null value the
wrapped function produced; additionally, the url-matcher schema wrapper
over a user callable never lets its wrapped function produce null when
the url argument is present (a `None` from the user callable is turned
into `False` before the adapter sees it). -/
theorem claimC7 :
    (∀ (α : Type) (c : CallableComponent α) (kw : Kwargs),
      c.fn (c.invokedKwargs kw) = none →
        c.call kw = .error (.mediaScrapyError
          (errorMessageFromComponent
            "Return none from site config component below" c))) ∧
    (∀ (α : Type) (c : CallableComponent α) (kw : Kwargs) (v : α),
      c.call kw = .ok v → c.fn (c.invokedKwargs kw) = some v) ∧
    (∀ (src : String) (f : String → Option UrlMatcherResult) (kw : Kwargs)
       (u : String), kw.url = some u →
      (urlMatcherOfCallable src f).fn
        ((urlMatcherOfCallable src f).invokedKwargs kw) ≠ none) := by
  refine ⟨?_, ?_, ?_⟩
  · intro α c kw h
    simp only [CallableComponent.call, h]
  · intro α c kw v h
    cases hfn : c.fn (c.invokedKwargs kw) with
    | none => simp only [CallableComponent.call, hfn] at h; exact absurd h (by simp)
    | some w =>
      simp only [CallableComponent.call, hfn, Except.ok.injEq] at h
      rw [h]
  · intro src f kw u h
    simp [urlMatcherOfCallable, CallableComponent.invokedKwargs, filterKwargs, h]

/-- C7 witness: a component returning null fails with the config error
at a concrete invocation. -/
theorem claimC7_witness :
    alwaysNoneComponent.call {} = .error (.mediaScrapyError
      (errorMessageFromComponent
        "Return none from site config component below" alwaysNoneComponent)) :=
  claimC7.1 Nat alwaysNoneComponent {} rfl

/-!  Claim C10. -/

/-- C10: a literal-string `as_url` or `file_path` option compiles to a
template component that returns the template verbatim when invoked with
`url_match = None`, and `url_match.expand(template)` otherwise. -/
theorem claimC10 :
    (∀ (t : String) (kw : Kwargs), kw.urlMatch = some none →
      (urlConverterOfTemplate t).call kw = .ok t) ∧
    (∀ (t : String) (kw : Kwargs) (m : UrlMatch), kw.urlMatch = some (some m) →
      (urlConverterOfTemplate t).call kw = .ok (m.expand t)) ∧
    (∀ (t : String) (kw : Kwargs), kw.urlMatch = some none →
      (filePathExtractorOfTemplate t).call kw = .ok t) ∧
    (∀ (t : String) (kw : Kwargs) (m : UrlMatch), kw.urlMatch = some (some m) →
      (filePathExtractorOfTemplate t).call kw = .ok (m.expand t)) := by
  refine ⟨?_, ?_, ?_, ?_⟩ <;> intro t kw
  · intro h
    simp [CallableComponent.call, CallableComponent.invokedKwargs,
      urlConverterOfTemplate, filterKwargs, h]
  · intro m h
    simp [CallableComponent.call, CallableComponent.invokedKwargs,
      urlConverterOfTemplate, filterKwargs, h]
  · intro h
    simp [CallableComponent.call, CallableComponent.invokedKwargs,
      filePathExtractorOfTemplate, filterKwargs, h]
  · intro m h
    simp [CallableComponent.call, CallableComponent.invokedKwargs,
      filePathExtractorOfTemplate, filterKwargs, h]

/-- C10 witness: concrete template invocations, with and without a
match object. -/
theorem claimC10_witness :
    (urlConverterOfTemplate "http://a/\\g<1>").call { urlMatch := some none } =
      .ok "http://a/\\g<1>" ∧
    (filePathExtractorOfTemplate "x.txt").call
        { urlMatch := some (some { expand := fun s => "E:" ++ s }) } =
      .ok ((UrlMatch.mk fun s => "E:" ++ s).expand "x.txt") :=
  ⟨claimC10.1 "http://a/\\g<1>" { urlMatch := some none } rfl,
   claimC10.2.2.2 "x.txt" { urlMatch := some (some { expand := fun s => "E:" ++ s }) }
     { expand := fun s => "E:" ++ s } rfl⟩

/-!  Claim C9. -/

/-- C9: a node without a url matcher never matches any url, and a
direct child of the root without a url matcher is skipped entirely by
the child loop: it contributes no commands and does not count as a
forwardable child for the start-url safety net. -/
theorem claimC9 :
    (∀ (n : StructureNode) (u : String), n.urlMatcher = none →
      n.matchUrl u = .ok (false, none)) ∧
    (∀ (res : Response) (path : List Nat) (pfp : String) (le : Selector)
       (m : Option UrlMatch) (links : List (Selector × String)) (idx : Nat)
       (c : StructureNode) (rest : List StructureNode), c.urlMatcher = none →
      processChildren true res path pfp le m links idx (c :: rest) =
        processChildren true res path pfp le m links (idx + 1) rest) := by
  constructor
  · intro n u h
    simp only [StructureNode.matchUrl, h]
    rfl
  · intro res path pfp le m links idx c rest h
    have hm : c.matchUrl res.url = .ok (false, none) := by
      simp only [StructureNode.matchUrl, h]
      rfl
    conv_lhs => rw [processChildren]
    simp [StructureNode.needsNoRequest, h, hm, ok_bind]

/-- C9 witness: a concrete matcher-less root child is skipped. -/
theorem claimC9_witness :
    (StructureNode.mk {} []).matchUrl "http://example.com/" = .ok (false, none) ∧
    processChildren true
        { url := "http://example.com/", body := [], titleText := none,
          urljoin := fun s => s, selectorList := emptySelectorList }
        [] "." someLinkEl none [] 0 [StructureNode.mk {} []] =
      processChildren true
        { url := "http://example.com/", body := [], titleText := none,
          urljoin := fun s => s, selectorList := emptySelectorList }
        [] "." someLinkEl none [] 1 [] :=
  ⟨claimC9.1 (StructureNode.mk {} []) "http://example.com/" rfl,
   claimC9.2 _ [] "." someLinkEl none [] 0 (StructureNode.mk {} []) [] rfl⟩

/-!  Claim C1. -/

/-- Shared lemma: evaluation of the planner body at a leaf parent node,
given the outcomes of the component invocations the body makes. -/
theorem planNode_leaf_eq (node : StructureNode) (res : Response)
    (path : List Nat) (orig : String) (le : Selector) (m : Option UrlMatch)
    (cn : SelectorList) (fpc : Option String) (bytes : List Nat)
    (hleaf : node.isLeaf = true)
    (hcn : node.getContentNode res.url le m res = .ok cn)
    (ha : node.assertContent res.url res cn le m = .ok ())
    (hf : node.getFilePathComponentAfterRequest res.url res cn le m = .ok fpc)
    (hb : (if node.needsResponseForFileContent then
            node.extractFileContent res.url res cn le m
          else pure res.body) = .ok bytes) :
    planNode node res path orig le m =
      .ok [UrlInfo.fileContent res.url (refineFilePath orig fpc) bytes] := by
  unfold planNode
  rw [hcn, ok_bind, ha, ok_bind, hf, ok_bind, hleaf]
  simp only [if_true]
  cases hnr : node.needsResponseForFileContent with
  | true =>
    rw [hnr] at hb
    simp only [if_true] at hb
    rw [if_pos rfl, hb, ok_bind]
    rfl
  | false =>
    rw [hnr] at hb
    simp only [Bool.false_eq_true, if_false] at hb
    rw [if_neg (by simp)]
    simp only [pure, Except.pure] at hb
    injection hb with hb2
    rw [hb2]
    rfl

/-- C1 (amended): for a parent context resolving to a leaf node the
planner returns exactly one SaveFileContent command whose file path is
the response-refined parent file path; its bytes come from the
file-content extractor only when an extractor is configured AND it
requires the response, and are the raw response body otherwise — also
when an extractor is configured but can run without the response. -/
theorem claimC1 (node : StructureNode) (res : Response) (path : List Nat)
    (orig : String) (le : Selector) (m : Option UrlMatch) (cn : SelectorList)
    (fpc : Option String) (bytes : List Nat)
    (hleaf : node.isLeaf = true)
    (hcn : node.getContentNode res.url le m res = .ok cn)
    (ha : node.assertContent res.url res cn le m = .ok ())
    (hf : node.getFilePathComponentAfterRequest res.url res cn le m = .ok fpc)
    (hb : (if node.needsResponseForFileContent then
            node.extractFileContent res.url res cn le m
          else pure res.body) = .ok bytes) :
    planNode node res path orig le m =
      .ok [UrlInfo.fileContent res.url (refineFilePath orig fpc) bytes] ∧
    (node.needsResponseForFileContent = false → bytes = res.body) := by
  constructor
  · exact planNode_leaf_eq node res path orig le m cn fpc bytes hleaf hcn ha hf hb
  · intro hnr
    rw [hnr] at hb
    simp only [Bool.false_eq_true, if_false, pure, Except.pure] at hb
    injection hb with hb2
    exact hb2.symm

/-- A file-content extractor declaring only the url argument: it is
configured but can run without the response. -/
def preRequestContentExtractor : CallableComponent StrOrBytes :=
  { sourceString := "def file_content(url): return \x22XX\x22\n"
    acceptsAllNamedArgs := false
    acceptableNamedArgs := ["url"]
    canAcceptResponse := true
    fn := fun kw => kw.url.map fun _ => .str "XX" }

/-- A leaf node carrying the pre-request file-content extractor. -/
def c1LeafNode : StructureNode :=
  .mk { fileContentExtractor := some preRequestContentExtractor } []

/-- A concrete response with body bytes `[1, 2, 3]`. -/
def c1Response : Response :=
  { url := "http://example.com/a", body := [1, 2, 3], titleText := none,
    urljoin := fun s => s, selectorList := emptySelectorList }

/-- C1 counterexample: at a leaf whose configured file-content
extractor does not require the response, the planner saves the raw
response body, not the extractor result — refuting both directions of
the claim (extractor result whenever configured; raw body only if
none configured). -/
theorem claimC1_counterexample :
    c1LeafNode.isLeaf = true ∧
    c1LeafNode.fileContentExtractor.isSome = true ∧
    c1LeafNode.extractFileContentWithoutResponse c1Response.url someLinkEl none =
      .ok (utf8Encode "XX") ∧
    planNode c1LeafNode c1Response [0] "d" someLinkEl none =
      .ok [UrlInfo.fileContent "http://example.com/a" "d" [1, 2, 3]] ∧
    ([1, 2, 3] : List Nat) ≠ utf8Encode "XX" := by
  refine ⟨rfl, rfl, rfl, ?_, by decide⟩
  unfold planNode
  rfl

/-- A file-content extractor that requires the response. -/
def postRequestContentExtractor : CallableComponent StrOrBytes :=
  { sourceString := "def file_content(res): return bytes([9, 9])\n"
    acceptsAllNamedArgs := false
    acceptableNamedArgs := ["res"]
    canAcceptResponse := true
    fn := fun kw => kw.res.map fun _ => .bytes [9, 9] }

/-- A leaf node whose file-content extractor needs the response. -/
def c1WitnessNode : StructureNode :=
  .mk { fileContentExtractor := some postRequestContentExtractor } []

/-- C1 witness: concrete leaf evaluation through the theorem. -/
theorem claimC1_witness :
    planNode c1WitnessNode c1Response [] "p" someLinkEl none =
      .ok [UrlInfo.fileContent c1Response.url (refineFilePath "p" none) [9, 9]] :=
  (claimC1 c1WitnessNode c1Response [] "p" someLinkEl none
    c1Response.selectorList none [9, 9] rfl rfl rfl rfl rfl).1

/-!  Claim C3. -/

/-- A bare root node with no children. -/
def emptyRootNode : StructureNode := .mk { isRoot := true } []

/-- A concrete start response with body `[7]` and a title. -/
def c3Response : Response :=
  { url := "http://example.com/", body := [7], titleText := some "T",
    urljoin := fun s => s, selectorList := emptySelectorList }

/-- C3 (amended): a plan invocation without a parent url-info proceeds
with the synthesized parent context: empty structure path, parent file
path "." (NOT the empty string), no parent url match, and a pseudo
anchor whose href is the response url and whose text is the response
title text (rendered "None" when the response has no title). -/
theorem claimC3 : ∀ (root : StructureNode) (res : Response),
    getUrlInfos root res none =
      planNode root res [] "."
        (Selector.anchor res.url (res.titleText.getD "None")) none := by
  intro root res
  rfl

/-- C3 counterexample: the synthesized parent file path is "." and not
the empty string — observable through a childless root, where the leaf
branch saves the response body under file path ".". -/
theorem claimC3_counterexample :
    getUrlInfos emptyRootNode c3Response none =
      .ok [UrlInfo.fileContent "http://example.com/" "." [7]] ∧
    ("." : String) ≠ "" := by
  refine ⟨?_, by decide⟩
  unfold getUrlInfos planNode
  rfl

/-!  Claim C8. -/

/-- C8: a literal-string `file_content` option evaluates the string as
an XPath over the parent content scope, JSON-encodes the list of all
results and emits the UTF-8 bytes of that JSON text as the saved file
content. -/
theorem claimC8 (node : StructureNode) (res : Response) (path : List Nat)
    (orig : String) (le : Selector) (m : Option UrlMatch) (xp : String)
    (fpc : Option String)
    (hleaf : node.isLeaf = true)
    (hfce : node.fileContentExtractor = some (contentExtractorOfXPath xp))
    (hcne : node.contentNodeExtractor = none)
    (ha : node.assertContent res.url res res.selectorList le m = .ok ())
    (hf : node.getFilePathComponentAfterRequest res.url res res.selectorList le m
            = .ok fpc) :
    planNode node res path orig le m =
      .ok [UrlInfo.fileContent res.url (refineFilePath orig fpc)
        (utf8Encode (jsonDumpsStringList (res.selectorList.xpathGetAll xp)))] := by
  have hneeds : node.needsResponseForFileContent = true := by
    simp [StructureNode.needsResponseForFileContent, hfce]
    rfl
  have hx : node.extractFileContent res.url res res.selectorList le m =
      .ok (utf8Encode (jsonDumpsStringList (res.selectorList.xpathGetAll xp))) := by
    simp only [StructureNode.extractFileContent, hfce]
    rfl
  apply planNode_leaf_eq node res path orig le m res.selectorList fpc _ hleaf
  · simp only [StructureNode.getContentNode, hcne]
    rfl
  · exact ha
  · exact hf
  · rw [hneeds, if_pos rfl, hx]

/-- The content scope of the C8 witness response: the document
`<p>foo</p><p>bar</p>`, on which `//p/text()` selects foo and bar. -/
def c8SelectorList : SelectorList :=
  { xpathGetAll := fun q => if q = "//p/text()" then ["foo", "bar"] else []
    linkEls := [] }

/-- The C8 witness response. -/
def c8Response : Response :=
  { url := "http://example.com/", body := [], titleText := none,
    urljoin := fun s => s, selectorList := c8SelectorList }

/-- A leaf node with `file_content: "//p/text()"`. -/
def c8Node : StructureNode :=
  .mk { fileContentExtractor := some (contentExtractorOfXPath "//p/text()") } []

/-- C8 witness: over a response containing `<p>foo</p><p>bar</p>` the
emitted bytes are the UTF-8 encoding of the JSON serialization of
the list foo, bar. -/
theorem claimC8_witness :
    planNode c8Node c8Response [] "test.json" someLinkEl none =
      .ok [UrlInfo.fileContent "http://example.com/" "test.json"
        (utf8Encode (jsonDumpsStringList ["foo", "bar"]))] ∧
    utf8Encode (jsonDumpsStringList ["foo", "bar"]) =
      [91, 34, 102, 111, 111, 34, 44, 32, 34, 98, 97, 114, 34, 93] := by
  constructor
  · exact claimC8 c8Node c8Response [] "test.json" someLinkEl none
      "//p/text()" none rfl rfl rfl rfl rfl
  · decide

/-!  Claim C2. -/

theorem error_bind {ε α β : Type} (e : ε) (f : α → Except ε β) :
    (Except.error e >>= f : Except ε β) = Except.error e := rfl

/-- C2 (amended): every RequestUrl emitted by the paging loop keeps the
parent structure path unchanged; its file path is the dirname of the
parent original file path joined with the pre-request file-path
extractor result when that extractor can run without a response, and
the parent original file path UNCHANGED otherwise (the spec claim
"empty string otherwise" holds only when the incoming file path is
itself empty). -/
theorem claimC2 (node : StructureNode) (path : List Nat) (orig : String)
    (links : List (Selector × String)) (infos : List UrlInfo)
    (h : pagingInfosFor node path orig links = .ok infos) :
    ∀ info ∈ infos, ∃ pi : ParseInfo, info = .parse pi ∧
      pi.structurePath = path ∧
      (node.canGetFilePathBeforeRequest = true →
        ∃ comp, node.getFilePathComponentBeforeRequest pi.url pi.linkEl pi.urlMatch
            = .ok (some comp) ∧
          pi.filePath = pathJoin (pathDirname orig) comp) ∧
      (node.canGetFilePathBeforeRequest = false → pi.filePath = orig) := by
  induction links generalizing infos with
  | nil =>
    unfold pagingInfosFor at h
    simp only [pure, Except.pure, Except.ok.injEq] at h
    subst h
    intro info hmem
    exact absurd hmem (by simp)
  | cons head rest ih =>
    obtain ⟨le, u⟩ := head
    unfold pagingInfosFor at h
    cases hmr : node.matchUrl u with
    | error e =>
      rw [hmr, error_bind] at h
      exact absurd h (by simp)
    | ok mr =>
      rw [hmr, ok_bind] at h
      obtain ⟨b, m2⟩ := mr
      cases b with
      | false =>
        simp only [Bool.false_eq_true, if_false] at h
        exact ih infos h
      | true =>
        simp only [if_true] at h
        cases hcu : node.convertUrl u le m2 with
        | error e =>
          rw [hcu, error_bind] at h
          exact absurd h (by simp)
        | ok cu =>
          rw [hcu, ok_bind] at h
          cases hcg : node.canGetFilePathBeforeRequest with
          | false =>
            rw [hcg] at h
            simp only [Bool.false_eq_true, if_false, pure, Except.pure, ok_bind] at h
            cases hrest : pagingInfosFor node path orig rest with
            | error e =>
              rw [hrest, error_bind] at h
              exact absurd h (by simp)
            | ok restInfos =>
              rw [hrest, ok_bind] at h
              simp only [pure, Except.pure, Except.ok.injEq] at h
              subst h
              intro info hmem
              rcases List.mem_cons.mp hmem with hhead | htail
              · subst hhead
                refine ⟨_, rfl, rfl, ?_, ?_⟩
                · intro hcg2
                  exact absurd hcg2 (by simp)
                · intro _
                  rfl
              · simpa [hcg] using ih restInfos hrest info htail
          | true =>
            rw [hcg] at h
            simp only [if_true] at h
            cases hcomp : node.getFilePathComponentBeforeRequest cu le m2 with
            | error e =>
              rw [hcomp, error_bind] at h
              exact absurd h (by simp)
            | ok comp? =>
              rw [hcomp, ok_bind] at h
              cases comp? with
              | none =>
                rw [error_bind] at h
                exact absurd h (by simp)
              | some comp =>
                simp only [pure, Except.pure, ok_bind] at h
                cases hrest : pagingInfosFor node path orig rest with
                | error e =>
                  rw [hrest, error_bind] at h
                  exact absurd h (by simp)
                | ok restInfos =>
                  rw [hrest, ok_bind] at h
                  simp only [Except.ok.injEq] at h
                  subst h
                  intro info hmem
                  rcases List.mem_cons.mp hmem with hhead | htail
                  · subst hhead
                    refine ⟨_, rfl, rfl, ?_, ?_⟩
                    · intro _
                      exact ⟨comp, hcomp, rfl⟩
                    · intro hcg2
                      exact absurd hcg2 (by simp)
                  · simpa [hcg] using ih restInfos hrest info htail

/-- A child node whose matcher rejects every url. -/
def c2PagingChild : StructureNode := .mk { urlMatcher := some rejectAllMatcher } []

/-- A paging node (non-leaf) with a functional matcher accepting every
url and no file-path extractor. -/
def c2PagingNode : StructureNode :=
  .mk { urlMatcher := some acceptAllMatcher, paging := true } [c2PagingChild]

/-- The anchor of the next-page link. -/
def c2LinkEl : Selector := Selector.anchor "/p2" "next"

/-- A content scope containing one next-page link. -/
def c2SelectorList : SelectorList :=
  { xpathGetAll := fun _ => [], linkEls := [(c2LinkEl, "/p2")] }

/-- The paging response, whose base url absolutizes the link. -/
def c2Response : Response :=
  { url := "http://example.com/", body := [], titleText := some "T",
    urljoin := fun s => "http://example.com" ++ s, selectorList := c2SelectorList }

/-- C2 counterexample: with a paging file path not computable before
the request and a non-empty incoming parent file path "d/x", the
emitted paging RequestUrl carries file path "d/x", not the empty
string the claim asserts. -/
theorem claimC2_counterexample :
    c2PagingNode.paging = true ∧
    c2PagingNode.canGetFilePathBeforeRequest = false ∧
    planNode c2PagingNode c2Response [0] "d/x" someLinkEl none =
      .ok [UrlInfo.parse
        ⟨"http://example.com/p2", "d/x", c2LinkEl, [0], none⟩] ∧
    ("d/x" : String) ≠ "" := by
  refine ⟨rfl, rfl, ?_, by decide⟩
  unfold planNode
  unfold processChildren
  simp only [c2PagingNode, c2PagingChild, StructureNode.children]
  unfold processChildren
  rfl

/-- C2 witness: the theorem instantiated at the counterexample input,
showing the structure path stays on the parent node and the file path
follows the amended rule. -/
theorem claimC2_witness :
    ∃ pi : ParseInfo,
      UrlInfo.parse ⟨"http://example.com/p2", "d/x", c2LinkEl, [0], none⟩
          = .parse pi ∧
      pi.structurePath = [0] ∧
      (c2PagingNode.canGetFilePathBeforeRequest = true →
        ∃ comp, c2PagingNode.getFilePathComponentBeforeRequest pi.url pi.linkEl
            pi.urlMatch = .ok (some comp) ∧
          pi.filePath = pathJoin (pathDirname "d/x") comp) ∧
      (c2PagingNode.canGetFilePathBeforeRequest = false → pi.filePath = "d/x") :=
  claimC2 c2PagingNode [0] "d/x" [(c2LinkEl, "http://example.com/p2")] _ rfl
    (UrlInfo.parse ⟨"http://example.com/p2", "d/x", c2LinkEl, [0], none⟩)
    (by simp)

/-!  Claim C5. -/

/-- Whether a node url matcher accepts a url (with a successful
matcher invocation). -/
def acceptedBy (c : StructureNode) (u : String) : Bool :=
  match c.matchUrl u with
  | .ok (true, _) => true
  | _ => false

/-- C5: a link-driven leaf child whose extractors (if any) need no
response and which has no file-content extractor produces exactly one
DownloadUrl per link its matcher accepts, and never a RequestUrl. -/
theorem claimC5 (c : StructureNode) (pfp : String) (spath : List Nat)
    (links : List (Selector × String)) (infos : List UrlInfo)
    (hleaf : c.isLeaf = true)
    (hfp : c.needsResponseForFilePath = false)
    (hfc : c.fileContentExtractor = none)
    (h : linkDrivenInfos c pfp spath links = .ok infos) :
    (∀ info ∈ infos, info.isDownload = true) ∧
    infos.length = links.countP (fun p => acceptedBy c p.2) := by
  have hnrc : c.needsResponseForFileContent = false := by
    simp [StructureNode.needsResponseForFileContent, hfc]
  have hcg : c.canGetFileContentBeforeRequest = false := by
    simp [StructureNode.canGetFileContentBeforeRequest, hfc]
  induction links generalizing infos with
  | nil =>
    unfold linkDrivenInfos at h
    simp only [pure, Except.pure, Except.ok.injEq] at h
    subst h
    exact ⟨by simp, by simp⟩
  | cons head rest ih =>
    obtain ⟨le, u⟩ := head
    unfold linkDrivenInfos at h
    cases hmr : c.matchUrl u with
    | error e => rw [hmr, error_bind] at h; exact absurd h (by simp)
    | ok mr =>
      rw [hmr, ok_bind] at h
      obtain ⟨b, m2⟩ := mr
      have hacc : acceptedBy c u = b := by
        unfold acceptedBy
        rw [hmr]
        cases b <;> rfl
      cases b with
      | false =>
        simp only [Bool.false_eq_true, if_false] at h
        obtain ⟨h1, h2⟩ := ih infos h
        refine ⟨h1, ?_⟩
        simp [List.countP_cons, hacc, h2]
      | true =>
        simp only [if_true] at h
        cases hcomp : c.getFilePathComponentBeforeRequest u le m2 with
        | error e => rw [hcomp, error_bind] at h; exact absurd h (by simp)
        | ok comp? =>
          rw [hcomp, ok_bind] at h
          cases hcu : c.convertUrl u le m2 with
          | error e => rw [hcu, error_bind] at h; exact absurd h (by simp)
          | ok cu =>
            rw [hcu, ok_bind] at h
            simp only [hleaf, hfp, hnrc, hcg, Bool.or_self, Bool.not_false,
              Bool.and_self, if_true, Bool.false_eq_true, if_false, pure,
              Except.pure, ok_bind] at h
            cases hrest : linkDrivenInfos c pfp spath rest with
            | error e => rw [hrest, error_bind] at h; exact absurd h (by simp)
            | ok restInfos =>
              rw [hrest, ok_bind] at h
              simp only [Except.ok.injEq] at h
              subst h
              obtain ⟨h1, h2⟩ := ih restInfos hrest
              constructor
              · intro info hmem
                rcases List.mem_cons.mp hmem with hhead | htail
                · subst hhead; rfl
                · exact h1 info htail
              · simp [List.countP_cons, hacc, h2]

/-- A leaf child accepting every url, with no extractors at all. -/
def c5Leaf : StructureNode := .mk { urlMatcher := some acceptAllMatcher } []

/-- C5 witness: one accepted link yields exactly one DownloadUrl. -/
theorem claimC5_witness :
    (∀ info ∈ [UrlInfo.download "http://example.com/a" "f"],
      info.isDownload = true) ∧
    [UrlInfo.download "http://example.com/a" "f"].length =
      [((c2LinkEl : Selector), "http://example.com/a")].countP
        (fun p => acceptedBy c5Leaf p.2) :=
  claimC5 c5Leaf "f" [1] [(c2LinkEl, "http://example.com/a")]
    [UrlInfo.download "http://example.com/a" "f"] rfl rfl rfl rfl

/-!  Claim C4. -/

/-- A regex that matches no url at all. -/
def c4RejectRegex : Regex := { fullmatch := fun _ => none }

/-- A root child whose literal matcher source is `http://other\.com/`
and rejects the start url. -/
def c4ChildNode : StructureNode :=
  .mk { urlMatcher := some (urlMatcherOfRegex "http://other\\.com/" c4RejectRegex) } []

/-- A root whose only child rejects the start url. -/
def c4RootNode : StructureNode := .mk { isRoot := true } [c4ChildNode]

/-- The start response whose url no root child accepts. -/
def c4Response : Response :=
  { url := "http://example.com/", body := [], titleText := some "T",
    urljoin := fun s => s, selectorList := emptySelectorList }

/-- C4: when no root child matcher accepts the start response url the
planner raises a `MediaScrapyError` carrying the matcher-source dump
and returns no commands — but the message in the code reads
"Start url doesn\x27t much any url matcher" (a misspelling of the
"match" the claim and spec state), as the final conjunct records. -/
theorem claimC4 :
    c4RootNode.isRoot = true ∧
    c4ChildNode.matchUrl c4Response.url = .ok (false, none) ∧
    getUrlInfos c4RootNode c4Response none =
      .error (.mediaScrapyError
        (errorMessageFromText startUrlNoMatchMessage
          (urlMatcherSourcesText c4RootNode.children))) ∧
    errorMessageFromText startUrlNoMatchMessage
        (urlMatcherSourcesText c4RootNode.children) =
      "Start url doesn\x27t much any url matcher:\n    0: http://other\\.com/\n\n" ∧
    ¬ ("Start url doesn\x27t much any url matcher" =
        "Start url doesn\x27t match any url matcher") := by
  refine ⟨rfl, rfl, ?_, by decide, by decide⟩
  unfold getUrlInfos planNode
  unfold processChildren
  simp only [c4RootNode, c4ChildNode, StructureNode.children]
  unfold processChildren
  rfl

/-!  Claim C6. -/

/-- C6: command ordering.  For a non-leaf parent the planner output is
the paging RequestUrl commands followed by the child-driven commands
(first conjunct: the plan is `pagingInfos ++ childInfos`); the
child-driven commands are grouped by sibling order, each link-driven
child contributing its per-link block in place (second conjunct) and
each pass-through child contributing the commands of its in-place
recursive plan at its sibling position (third conjunct); within a
link-driven block, commands follow the document order of the extracted
links (`linkDrivenInfos` traverses `linkInfos` in order). -/
theorem claimC6 :
    (∀ (node : StructureNode) (res : Response) (path : List Nat) (orig : String)
       (le : Selector) (m : Option UrlMatch), node.isLeaf = false →
      planNode node res path orig le m = do
        let contentNode ← node.getContentNode res.url le m res
        node.assertContent res.url res contentNode le m
        let parentFilePathComponent ←
          node.getFilePathComponentAfterRequest res.url res contentNode le m
        let parentFilePath := refineFilePath orig parentFilePathComponent
        let linkInfos := getLinks res contentNode
        let pagingInfos ←
          if node.paging then pagingInfosFor node path orig linkInfos else pure []
        let r ← processChildren node.isRoot res path parentFilePath le m linkInfos
          0 node.children
        if ! r.2 && node.isRoot then
          Except.error (.mediaScrapyError
            (errorMessageFromText startUrlNoMatchMessage
              (urlMatcherSourcesText node.children)))
        else
          pure (pagingInfos ++ r.1)) ∧
    (∀ (isRoot : Bool) (res : Response) (path : List Nat) (pfp : String)
       (le : Selector) (m : Option UrlMatch) (links : List (Selector × String))
       (idx : Nat) (c : StructureNode) (rest : List StructureNode),
      (c.needsNoRequest || isRoot) = false →
      processChildren isRoot res path pfp le m links idx (c :: rest) = do
        let blockInfos ← linkDrivenInfos c pfp (path ++ [idx]) links
        let r ← processChildren isRoot res path pfp le m links (idx + 1) rest
        pure (blockInfos ++ r.1, r.2)) ∧
    (∀ (res : Response) (path : List Nat) (pfp : String) (le : Selector)
       (m : Option UrlMatch) (links : List (Selector × String)) (idx : Nat)
       (c : StructureNode) (rest : List StructureNode),
      c.needsNoRequest = true →
      processChildren false res path pfp le m links idx (c :: rest) = do
        let comp? ← c.getFilePathComponentBeforeRequest res.url le m
        let filePath := refineFilePath pfp comp?
        let _convertedUrl ← c.convertUrl res.url le m
        let subInfos ← planNode c res (path ++ [idx]) filePath le m
        let r ← processChildren false res path pfp le m links (idx + 1) rest
        pure (subInfos ++ r.1, true)) := by
  refine ⟨?_, ?_, ?_⟩
  · intro node res path orig le m h
    conv_lhs => rw [planNode]
    simp only [h, Bool.false_eq_true, if_false]
    rfl
  · intro isRoot res path pfp le m links idx c rest h
    conv_lhs => rw [processChildren]
    simp only [h, Bool.false_eq_true, if_false]
  · intro res path pfp le m links idx c rest h
    conv_lhs => rw [processChildren]
    simp only [h, Bool.true_or, Bool.or_false, eq_self_iff_true, if_true,
      Bool.false_eq_true, if_false, pure, Except.pure, ok_bind]
    rfl

/-- C6 witness: the decomposition instantiated at a concrete paging
parent. -/
theorem claimC6_witness :
    planNode c2PagingNode c2Response [0] "d/x" someLinkEl none = (do
      let contentNode ←
        c2PagingNode.getContentNode c2Response.url someLinkEl none c2Response
      c2PagingNode.assertContent c2Response.url c2Response contentNode
        someLinkEl none
      let parentFilePathComponent ←
        c2PagingNode.getFilePathComponentAfterRequest c2Response.url c2Response
          contentNode someLinkEl none
      let parentFilePath := refineFilePath "d/x" parentFilePathComponent
      let linkInfos := getLinks c2Response contentNode
      let pagingInfos ←
        if c2PagingNode.paging then
          pagingInfosFor c2PagingNode [0] "d/x" linkInfos
        else pure []
      let r ← processChildren c2PagingNode.isRoot c2Response [0] parentFilePath
        someLinkEl none linkInfos 0 c2PagingNode.children
      if ! r.2 && c2PagingNode.isRoot then
        Except.error (.mediaScrapyError
          (errorMessageFromText startUrlNoMatchMessage
            (urlMatcherSourcesText c2PagingNode.children)))
      else
        pure (pagingInfos ++ r.1)) :=
  claimC6.1 c2PagingNode c2Response [0] "d/x" someLinkEl none rfl

end MediaScrapy
